import Mathlib

/-!
Shallow embedding of the ecs-rs entity-component store
(src/entities.rs and src/entities/query.rs) together with proofs of the
specification claims.

Modelling choices:
* Rust TypeId is modelled by Nat; a component value (Rc<RefCell<dyn Any>>)
  is modelled by a Nat (values are opaque to the registry, only stored,
  overwritten and returned).
* The two HashMaps (components, bit_masks) are modelled by association
  lists in insertion order; the registry only uses entry-or-insert, get,
  get_mut, len and an order-independent for-each, so an association list
  is a faithful model.
* u32 presence masks are modelled by Nat; every mask produced by the code
  is 1 <<< k with k < 32 whenever at most 32 distinct types are
  registered (the limit the spec imposes), so Nat arithmetic coincides
  with u32 arithmetic in all states the claims quantify over.
* A fallible operation returns an OpResult carrying the resulting state;
  the error constructor carries the state as left at the moment of the
  early return, and panicked models a Rust panic (unwrap failure or
  out-of-bounds indexing), which aborts with no observable state.
-/

abbrev TypeId := Nat
abbrev Value := Nat

/-- The three variants of CustomError from src/custom_errors.rs. -/
inductive CustomError where
  | CreateComponentNeverCalled
  | ComponentNotRegistered
  | EntityDoesNotExist
deriving DecidableEq, Repr

/-- Outcome of a fallible registry operation: ok with the new state,
an early-return error carrying the state at the point of return, or a
Rust panic (which aborts, leaving no observable state). -/
inductive OpResult (α : Type) where
  | ok (st : α)
  | error (err : CustomError) (st : α)
  | panicked
deriving DecidableEq, Repr

/-- Lookup in an association list (HashMap::get). -/
def alGet {α : Type} : List (TypeId × α) → TypeId → Option α
  | [], _ => none
  | (k, v) :: rest, t => if k = t then some v else alGet rest t

/-- Replace the value at an existing key (HashMap::get_mut then assign);
a missing key leaves the list unchanged. -/
def alSet {α : Type} : List (TypeId × α) → TypeId → α → List (TypeId × α)
  | [], _, _ => []
  | (k, w) :: rest, t, v =>
      if k = t then (k, v) :: rest else (k, w) :: alSet rest t v

/-- The registry state (struct Entities, src/entities.rs lines 12-18).
components maps a TypeId to its column of optional values, bit_masks maps
a TypeId to its presence bit, map is the per-slot presence-bitmask
sequence, first_empty_index is the pending-creation cursor. -/
structure Entities where
  components : List (TypeId × List (Option Value))
  bit_masks : List (TypeId × Nat)
  map : List Nat
  first_empty_index : Nat
deriving DecidableEq, Repr

/-- Entities::default(): empty maps, no slots, cursor 0. -/
def initEntities : Entities := ⟨[], [], [], 0⟩

/-- Entities::register_component::<T>() (src/entities.rs lines 21-28):
entry-or-insert an empty column for T, then entry-or-insert the bitmask
1 << (components.len() - 1), components.len() taken after the first
insert. -/
def register_component (e : Entities) (t : TypeId) : Entities :=
  let comps :=
    if (alGet e.components t).isSome then e.components
    else e.components ++ [(t, [])]
  let bms :=
    if (alGet e.bit_masks t).isSome then e.bit_masks
    else e.bit_masks ++ [(t, 1 <<< (comps.length - 1))]
  { e with components := comps, bit_masks := bms }

/-- Index of the first element equal to 0
(map.iter().enumerate().find(|(_, mask)| **mask == 0)). -/
def firstFree : List Nat → Option Nat
  | [] => none
  | m :: ms => if m == 0 then some 0 else (firstFree ms).map (· + 1)

/-- Entities::create_entity (src/entities.rs lines 30-39): reuse the first
slot whose presence mask is 0, setting only the cursor; otherwise push an
empty entry onto every column, a 0 onto map, and point the cursor at the
new last index. -/
def create_entity (e : Entities) : Entities :=
  match firstFree e.map with
  | some i => { e with first_empty_index := i }
  | none =>
      { e with
          components := e.components.map (fun p => (p.1, p.2 ++ [none])),
          map := e.map ++ [0],
          first_empty_index := e.map.length }

/-- Entities::with_component (src/entities.rs lines 41-57): attach a value
of type t to the slot at the pending cursor. A missing column is the
ComponentNotRegistered early return; a column with no entry at the cursor
index is ok_or(CreateComponentNeverCalled).unwrap(), i.e. a panic; the
bit_masks and map unwraps are panics as well. -/
def with_component (e : Entities) (t : TypeId) (v : Value) : OpResult Entities :=
  match alGet e.components t with
  | none => .error .ComponentNotRegistered e
  | some col =>
      if e.first_empty_index < col.length then
        match alGet e.bit_masks t with
        | none => .panicked
        | some bm =>
            if e.first_empty_index < e.map.length then
              .ok { e with
                      components :=
                        alSet e.components t (col.set e.first_empty_index (some v)),
                      map := e.map.set e.first_empty_index
                        ((e.map.getD e.first_empty_index 0) ||| bm) }
            else .panicked
      else .panicked

/-- Entities::get_bitmask (src/entities.rs lines 59-61). -/
def get_bitmask (e : Entities) (t : TypeId) : Option Nat :=
  alGet e.bit_masks t

/-- Entities::delete_component_by_entity_id::<T>(id)
(src/entities.rs lines 63-72): a missing bitmask is the
ComponentNotRegistered early return; otherwise map[id] ^= mask, where the
indexing panics when id is out of range. -/
def delete_component_by_entity_id (e : Entities) (t : TypeId) (id : Nat) :
    OpResult Entities :=
  match alGet e.bit_masks t with
  | none => .error .ComponentNotRegistered e
  | some mask =>
      if id < e.map.length then
        .ok { e with map := e.map.set id ((e.map.getD id 0) ^^^ mask) }
      else .panicked

/-- Entities::add_component_by_entity_id (src/entities.rs lines 74-85):
a missing bitmask is the ComponentNotRegistered early return; then
components.get_mut(&type_id).unwrap() and the indexings components[id]
and map[id] panic when they fail. -/
def add_component_by_entity_id (e : Entities) (id : Nat) (t : TypeId) (v : Value) :
    OpResult Entities :=
  match alGet e.bit_masks t with
  | none => .error .ComponentNotRegistered e
  | some mask =>
      match alGet e.components t with
      | none => .panicked
      | some col =>
          if id < col.length then
            if id < e.map.length then
              .ok { e with
                      components := alSet e.components t (col.set id (some v)),
                      map := e.map.set id ((e.map.getD id 0) ||| mask) }
            else .panicked
          else .panicked

/-- Entities::delete_by_id (src/entities.rs lines 87-95): out-of-range id
is the EntityDoesNotExist early return; otherwise the presence mask of the
slot is set to 0. -/
def delete_by_id (e : Entities) (id : Nat) : OpResult Entities :=
  if id < e.map.length then
    .ok { e with map := e.map.set id 0 }
  else
    .error .EntityDoesNotExist e

/-- The query builder (struct Query, src/entities/query.rs lines 11-15):
the accumulated required mask and the ordered list of requested types.
The borrowed registry is passed explicitly to each operation. -/
structure Query where
  map : Nat
  type_ids : List TypeId
deriving DecidableEq, Repr

/-- Query::new (src/entities/query.rs lines 17-24). -/
def Query.new : Query := ⟨0, []⟩

/-- Query::with_component::<T>() (src/entities/query.rs lines 26-38):
unregistered T is the ComponentNotRegistered early return, leaving the
builder as it was; otherwise OR the bit of T into the mask and append T to the
ordered type list. -/
def Query.with_component (e : Entities) (q : Query) (t : TypeId) : OpResult Query :=
  match get_bitmask e t with
  | none => .error .ComponentNotRegistered q
  | some bm => .ok ⟨q.map ||| bm, q.type_ids ++ [t]⟩

/-- Collect a list of fallible results, stopping at the first failure
(models a Rust iterator map whose body can panic, collected into a Vec:
the first panic aborts the whole run). -/
def collectOpt {α β : Type} (f : α → Option β) : List α → Option (List β)
  | [] => some []
  | x :: xs =>
      match f x with
      | none => none
      | some y =>
          match collectOpt f xs with
          | none => none
          | some ys => some (y :: ys)

/-- The index scan of Query::run (src/entities/query.rs lines 41-53):
all slot indices, in ascending order, whose presence mask contains every
bit of the required mask. -/
def matchIdx (e : Entities) (qmask : Nat) : List Nat :=
  (List.range e.map.length).filter (fun i => (e.map.getD i 0) &&& qmask == qmask)

/-- Query::run (src/entities/query.rs lines 40-68): compute the matching
indices, then for each requested type (in require order, duplicates kept)
gather components[index].as_ref().unwrap() at each matching index; the
column lookup components.get(type_id).unwrap() and the per-slot unwrap
panic when they fail, aborting the whole run (modelled as none). -/
def Query.run (e : Entities) (q : Query) : Option (List Nat × List (List Value)) :=
  match collectOpt (fun t =>
      match alGet e.components t with
      | none => none
      | some col => collectOpt (fun i => (col.get? i).bind id) (matchIdx e q.map))
    q.type_ids with
  | none => none
  | some results => some (matchIdx e q.map, results)

/-- Fold a sequence of register_component calls. -/
def registerAll (e : Entities) (ts : List TypeId) : Entities :=
  ts.foldl register_component e

/-- Build a query by a sequence of Query::with_component calls. -/
def buildQuery (e : Entities) : Query → List TypeId → OpResult Query
  | q, [] => .ok q
  | q, t :: ts =>
      match Query.with_component e q t with
      | .ok q2 => buildQuery e q2 ts
      | .error err q2 => .error err q2
      | .panicked => .panicked

/-- The length-synchronization invariant: every registered column is as
long as the presence-bitmask sequence. -/
def lengthSync (e : Entities) : Bool :=
  e.components.all (fun p => p.2.length == e.map.length)

/-- The stored value of type t at slot i: some v when the column exists,
has an entry at i, and that entry holds a value. -/
def storedValue (e : Entities) (t : TypeId) (i : Nat) : Option Value :=
  (alGet e.components t).bind (fun col => (col.get? i).bind id)

/-- The precondition under which Query::run cannot panic: every requested
type has a column and every matching slot holds a stored value in every
column of every requested type. -/
def runPre (e : Entities) (q : Query) : Bool :=
  q.type_ids.all (fun t =>
    (alGet e.components t).isSome &&
      (matchIdx e q.map).all (fun i => (storedValue e t i).isSome))

/-- States reachable from the initial registry by the public operations,
an operation that returns a result contributing only when it succeeds. -/
inductive Reach : Entities → Prop where
  | init : Reach initEntities
  | reg {e : Entities} (t : TypeId) : Reach e → Reach (register_component e t)
  | create {e : Entities} : Reach e → Reach (create_entity e)
  | attach {e e2 : Entities} (t : TypeId) (v : Value) :
      Reach e → with_component e t v = .ok e2 → Reach e2
  | attachAt {e e2 : Entities} (id : Nat) (t : TypeId) (v : Value) :
      Reach e → add_component_by_entity_id e id t v = .ok e2 → Reach e2
  | detach {e e2 : Entities} (t : TypeId) (id : Nat) :
      Reach e → delete_component_by_entity_id e t id = .ok e2 → Reach e2
  | delete {e e2 : Entities} (id : Nat) :
      Reach e → delete_by_id e id = .ok e2 → Reach e2

/-- States reachable when every register_component call happens while no
entity slot exists yet (registration strictly precedes entity creation). -/
inductive ReachRF : Entities → Prop where
  | init : ReachRF initEntities
  | reg {e : Entities} (t : TypeId) : ReachRF e → e.map = [] →
      ReachRF (register_component e t)
  | create {e : Entities} : ReachRF e → ReachRF (create_entity e)
  | attach {e e2 : Entities} (t : TypeId) (v : Value) :
      ReachRF e → with_component e t v = .ok e2 → ReachRF e2
  | attachAt {e e2 : Entities} (id : Nat) (t : TypeId) (v : Value) :
      ReachRF e → add_component_by_entity_id e id t v = .ok e2 → ReachRF e2
  | detach {e e2 : Entities} (t : TypeId) (id : Nat) :
      ReachRF e → delete_component_by_entity_id e t id = .ok e2 → ReachRF e2
  | delete {e e2 : Entities} (id : Nat) :
      ReachRF e → delete_by_id e id = .ok e2 → ReachRF e2

example : register_component initEntities 0 =
    ⟨[(0, [])], [(0, 1)], [], 0⟩ := by decide

example : create_entity (register_component initEntities 0) =
    ⟨[(0, [none])], [(0, 1)], [0], 0⟩ := by decide

example : with_component (create_entity (register_component initEntities 0)) 0 7 =
    .ok ⟨[(0, [some 7])], [(0, 1)], [1], 0⟩ := by decide

example : register_component (create_entity initEntities) 0 =
    ⟨[(0, [])], [(0, 1)], [0], 0⟩ := by decide

example : lengthSync (register_component (create_entity initEntities) 0) = false := by
  decide

theorem getD_cons_succ_nat (x : Nat) (xs : List Nat) (j d : Nat) :
    (x :: xs).getD (j + 1) d = xs.getD j d := rfl

theorem getD_set_self : ∀ (l : List Nat) (i a d : Nat), i < l.length →
    (l.set i a).getD i d = a
  | [], i, a, d, h => absurd h (by simp)
  | x :: xs, 0, a, d, _ => rfl
  | x :: xs, i + 1, a, d, h =>
      getD_set_self xs i a d (Nat.lt_of_succ_lt_succ h)

theorem getD_set_ne : ∀ (l : List Nat) (i j a d : Nat), j ≠ i →
    (l.set i a).getD j d = l.getD j d
  | [], _, _, _, _, _ => by simp [List.set]
  | x :: xs, 0, 0, a, d, h => absurd rfl h
  | x :: xs, 0, j + 1, a, d, h => rfl
  | x :: xs, i + 1, 0, a, d, h => rfl
  | x :: xs, i + 1, j + 1, a, d, h =>
      getD_set_ne xs i j a d (fun hh => h (by omega))

/-- Claim C7: delete_by_id returns EntityDoesNotExist exactly when the id
is out of range of the presence-mask sequence, leaving the state as it
was; otherwise it zeroes that slot presence mask and changes nothing
else: the columns, the type tables, the cursor and every other slot mask
are untouched. -/
theorem c7_delete_by_id (e : Entities) (id : Nat) :
    (delete_by_id e id = .error .EntityDoesNotExist e ↔ e.map.length ≤ id) ∧
    (id < e.map.length →
      delete_by_id e id = .ok { e with map := e.map.set id 0 } ∧
      ∀ j, j ≠ id → (e.map.set id 0).getD j 0 = e.map.getD j 0) := by
  constructor
  · unfold delete_by_id
    split
    · next h => simp; omega
    · next h => simp; omega
  · intro h
    refine ⟨by unfold delete_by_id; simp [h], ?_⟩
    intro j hj
    exact getD_set_ne e.map id j 0 0 hj

theorem c7_witness :
    delete_by_id ⟨[(0, [some 5])], [(0, 1)], [1], 0⟩ 0 =
      .ok ⟨[(0, [some 5])], [(0, 1)], [0], 0⟩ :=
  ((c7_delete_by_id ⟨[(0, [some 5])], [(0, 1)], [1], 0⟩ 0).2 (by decide)).1

/-- Claim C3: for an in-range slot id and a registered type, detach
XOR-toggles the bit of that type in the slot presence mask and leaves
every column untouched (the stored value stays in place); when the bit
was clear the XOR sets it; for an unregistered type it fails with
ComponentNotRegistered and changes nothing. -/
theorem c3_detach (e : Entities) (t : TypeId) (id : Nat) :
    (alGet e.bit_masks t = none →
      delete_component_by_entity_id e t id = .error .ComponentNotRegistered e) ∧
    (∀ mask, alGet e.bit_masks t = some mask → id < e.map.length →
      delete_component_by_entity_id e t id =
        .ok { e with map := e.map.set id ((e.map.getD id 0) ^^^ mask) } ∧
      ∀ b, mask.testBit b = true → (e.map.getD id 0).testBit b = false →
        ((e.map.getD id 0) ^^^ mask).testBit b = true) := by
  constructor
  · intro h
    unfold delete_component_by_entity_id
    rw [h]
  · intro mask hm hid
    constructor
    · unfold delete_component_by_entity_id
      rw [hm]
      simp [hid]
    · intro b hb hnb
      rw [Nat.testBit_xor, hnb, hb]
      rfl

theorem c3_witness :
    delete_component_by_entity_id ⟨[(0, [none])], [(0, 1)], [0], 0⟩ 0 0 =
      .ok ⟨[(0, [none])], [(0, 1)], [1], 0⟩ ∧ Nat.testBit 1 0 = true :=
  ⟨((c3_detach ⟨[(0, [none])], [(0, 1)], [0], 0⟩ 0 0).2 1 (by decide) (by decide)).1,
   by decide⟩

/-- Claim C8: every fallible operation is atomic on its error path: when
attach by cursor, attach by id, detach, entity deletion or a query
require call returns a result error, the state it leaves behind is
exactly the state before the call (for the query require, the builder is
unchanged; the registry is only borrowed and never written). -/
theorem c8_atomic_errors (e : Entities) (q : Query) (t : TypeId) (v : Value)
    (id : Nat) (err : CustomError) :
    (∀ st, with_component e t v = .error err st → st = e) ∧
    (∀ st, add_component_by_entity_id e id t v = .error err st → st = e) ∧
    (∀ st, delete_component_by_entity_id e t id = .error err st → st = e) ∧
    (∀ st, delete_by_id e id = .error err st → st = e) ∧
    (∀ q2, Query.with_component e q t = .error err q2 → q2 = q) := by
  refine ⟨?_, ?_, ?_, ?_, ?_⟩
  · intro st h
    unfold with_component at h
    repeat' split at h
    all_goals simp_all
  · intro st h
    unfold add_component_by_entity_id at h
    repeat' split at h
    all_goals simp_all
  · intro st h
    unfold delete_component_by_entity_id at h
    repeat' split at h
    all_goals simp_all
  · intro st h
    unfold delete_by_id at h
    repeat' split at h
    all_goals simp_all
  · intro q2 h
    unfold Query.with_component at h
    repeat' split at h
    all_goals simp_all

theorem c8_witness : initEntities = initEntities ∧ Query.new = Query.new :=
  ⟨(c8_atomic_errors initEntities Query.new 0 5 0 .ComponentNotRegistered).1
      initEntities rfl,
   (c8_atomic_errors initEntities Query.new 0 5 0 .ComponentNotRegistered).2.2.2.2
      Query.new rfl⟩

/-- Claim C10: running a query on which require was never called returns
every existing slot index in ascending order, including slots whose
presence mask is zero, paired with an empty list of columns. -/
theorem c10_empty_query (e : Entities) :
    Query.run e Query.new = some (List.range e.map.length, []) := by
  unfold Query.run Query.new matchIdx
  have hf : (List.range e.map.length).filter
      (fun i => (e.map.getD i 0) &&& (0 : Nat) == 0) = List.range e.map.length := by
    apply List.filter_eq_self.mpr
    intro a _
    simp [Nat.and_zero]
  simp only [hf, collectOpt]

theorem firstFree_none_iff : ∀ (l : List Nat),
    firstFree l = none ↔ ∀ j, j < l.length → l.getD j 0 ≠ 0 := by
  intro l
  induction l with
  | nil => simp [firstFree]
  | cons m ms ih =>
      unfold firstFree
      by_cases hm : m = 0
      · subst hm
        simp only [beq_self_eq_true, if_true]
        constructor
        · intro h; exact absurd h (by simp)
        · intro h
          exact absurd rfl (h 0 (by simp))
      · simp only [beq_iff_eq, hm, if_false, Option.map_eq_none']
        rw [ih]
        constructor
        · intro h j hj
          cases j with
          | zero => simpa using hm
          | succ j' =>
              rw [getD_cons_succ_nat]
              exact h j' (by simpa using hj)
        · intro h j hj
          have := h (j + 1) (by simpa using hj)
          rwa [getD_cons_succ_nat] at this

theorem firstFree_some_iff : ∀ (l : List Nat) (i : Nat),
    firstFree l = some i ↔
      (i < l.length ∧ l.getD i 0 = 0 ∧ ∀ j, j < i → l.getD j 0 ≠ 0) := by
  intro l
  induction l with
  | nil => intro i; simp [firstFree]
  | cons m ms ih =>
      intro i
      unfold firstFree
      by_cases hm : m = 0
      · subst hm
        simp only [beq_self_eq_true, if_true]
        constructor
        · intro h
          have hi : i = 0 := by simpa [eq_comm] using h
          subst hi
          exact ⟨by simp, rfl, by omega⟩
        · intro ⟨h1, h2, h3⟩
          cases i with
          | zero => rfl
          | succ i' => exact absurd rfl (h3 0 (by omega))
      · simp only [beq_iff_eq, hm, if_false]
        constructor
        · intro h
          obtain ⟨k, hk, hki⟩ := Option.map_eq_some'.mp h
          obtain ⟨h1, h2, h3⟩ := (ih k).mp hk
          subst hki
          refine ⟨by simpa using Nat.succ_lt_succ h1, by rwa [getD_cons_succ_nat], ?_⟩
          intro j hj
          cases j with
          | zero => simpa using hm
          | succ j' =>
              rw [getD_cons_succ_nat]
              exact h3 j' (by omega)
        · intro ⟨h1, h2, h3⟩
          cases i with
          | zero => exact absurd h2 (by simpa using hm)
          | succ i' =>
              rw [Option.map_eq_some']
              refine ⟨i', (ih i').mpr ⟨by simpa using h1, by rwa [getD_cons_succ_nat] at h2, ?_⟩, rfl⟩
              intro j hj
              have := h3 (j + 1) (by omega)
              rwa [getD_cons_succ_nat] at this

/-- Claim C4: create_entity either reuses the lowest-index slot whose
presence mask is zero, changing only the pending-creation cursor (every
column keeps its length and contents), or, when every existing slot has
a nonzero mask, appends one empty entry to every registered column and
one zero entry to the presence-mask sequence and points the cursor at
the new last index. -/
theorem c4_create_entity (e : Entities) :
    ((∀ j, j < e.map.length → e.map.getD j 0 ≠ 0) →
      create_entity e =
        { e with
            components := e.components.map (fun p => (p.1, p.2 ++ [none])),
            map := e.map ++ [0],
            first_empty_index := e.map.length }) ∧
    (∀ i, i < e.map.length → e.map.getD i 0 = 0 →
      (∀ j, j < i → e.map.getD j 0 ≠ 0) →
      create_entity e = { e with first_empty_index := i }) := by
  constructor
  · intro h
    unfold create_entity
    rw [(firstFree_none_iff e.map).mpr h]
  · intro i h1 h2 h3
    unfold create_entity
    rw [(firstFree_some_iff e.map i).mpr ⟨h1, h2, h3⟩]

theorem c4_witness :
    create_entity ⟨[(0, [some 9, some 8, some 7])], [(0, 1)], [1, 0, 0], 9⟩ =
        ⟨[(0, [some 9, some 8, some 7])], [(0, 1)], [1, 0, 0], 1⟩ ∧
      create_entity ⟨[(0, [some 9])], [(0, 1)], [1], 9⟩ =
        ⟨[(0, [some 9, none])], [(0, 1)], [1, 0], 1⟩ :=
  ⟨(c4_create_entity ⟨[(0, [some 9, some 8, some 7])], [(0, 1)], [1, 0, 0], 9⟩).2 1
      (by decide) (by decide) (by decide),
   (c4_create_entity ⟨[(0, [some 9])], [(0, 1)], [1], 9⟩).1 (by decide)⟩

theorem alGet_mem {α : Type} : ∀ (l : List (TypeId × α)) (t : TypeId) (w : α),
    alGet l t = some w → (t, w) ∈ l := by
  intro l
  induction l with
  | nil => intro t w h; exact absurd h (by simp [alGet])
  | cons p rest ih =>
      intro t w h
      obtain ⟨k, v⟩ := p
      unfold alGet at h
      by_cases hk : k = t
      · subst hk
        simp only [if_true] at h
        obtain rfl : v = w := by simpa using h
        exact List.mem_cons_self _ _
      · simp only [hk, if_false] at h
        exact List.mem_cons_of_mem _ (ih t w h)

theorem all_alSet {α : Type} (P : TypeId × α → Bool) :
    ∀ (l : List (TypeId × α)) (t : TypeId) (v : α),
    l.all P = true → P (t, v) = true → (alSet l t v).all P = true := by
  intro l
  induction l with
  | nil => intro t v _ _; rfl
  | cons p rest ih =>
      intro t v hl hv
      obtain ⟨k, w⟩ := p
      rw [List.all_cons, Bool.and_eq_true] at hl
      unfold alSet
      by_cases hk : k = t
      · subst hk
        simp only [if_true, List.all_cons, Bool.and_eq_true]
        exact ⟨hv, hl.2⟩
      · simp only [hk, if_false, List.all_cons, Bool.and_eq_true]
        exact ⟨hl.1, ih t v hl.2 hv⟩

theorem lengthSync_register (e : Entities) (t : TypeId) (hm : e.map = [])
    (h : lengthSync e = true) : lengthSync (register_component e t) = true := by
  unfold lengthSync register_component
  unfold lengthSync at h
  by_cases hc : (alGet e.components t).isSome
  · simpa [hc] using h
  · rw [if_neg hc]
    rw [List.all_append, Bool.and_eq_true]
    refine ⟨h, ?_⟩
    simp [hm]

theorem lengthSync_create (e : Entities) (h : lengthSync e = true) :
    lengthSync (create_entity e) = true := by
  unfold lengthSync create_entity
  unfold lengthSync at h
  cases hf : firstFree e.map with
  | some i => simpa using h
  | none =>
      simp only []
      rw [List.all_eq_true] at h ⊢
      intro p hp
      obtain ⟨q, hq, rfl⟩ := List.mem_map.mp hp
      have hq2 := h q hq
      simp only [beq_iff_eq] at hq2 ⊢
      simp [hq2]

theorem lengthSync_with_component (e e2 : Entities) (t : TypeId) (v : Value)
    (hok : with_component e t v = .ok e2) (h : lengthSync e = true) :
    lengthSync e2 = true := by
  unfold with_component at hok
  split at hok
  · exact absurd hok (by simp)
  · next col hcol =>
      split at hok
      · split at hok
        · exact absurd hok (by simp)
        · split at hok
          · obtain rfl : _ = e2 := by simpa using hok
            unfold lengthSync at h ⊢
            simp only [List.length_set]
            apply all_alSet _ _ _ _ h
            have hmem := alGet_mem e.components t col hcol
            have hcl := (List.all_eq_true.mp h) _ hmem
            simpa using hcl
          · exact absurd hok (by simp)
      · exact absurd hok (by simp)

theorem lengthSync_add (e e2 : Entities) (id : Nat) (t : TypeId) (v : Value)
    (hok : add_component_by_entity_id e id t v = .ok e2) (h : lengthSync e = true) :
    lengthSync e2 = true := by
  unfold add_component_by_entity_id at hok
  split at hok
  · exact absurd hok (by simp)
  · split at hok
    · exact absurd hok (by simp)
    · next col hcol =>
        split at hok
        · split at hok
          · obtain rfl : _ = e2 := by simpa using hok
            unfold lengthSync at h ⊢
            simp only [List.length_set]
            apply all_alSet _ _ _ _ h
            have hmem := alGet_mem e.components t col hcol
            have hcl := (List.all_eq_true.mp h) _ hmem
            simpa using hcl
          · exact absurd hok (by simp)
        · exact absurd hok (by simp)

theorem lengthSync_detach (e e2 : Entities) (t : TypeId) (id : Nat)
    (hok : delete_component_by_entity_id e t id = .ok e2) (h : lengthSync e = true) :
    lengthSync e2 = true := by
  unfold delete_component_by_entity_id at hok
  split at hok
  · exact absurd hok (by simp)
  · split at hok
    · obtain rfl : _ = e2 := by simpa using hok
      unfold lengthSync at h ⊢
      simpa [List.length_set] using h
    · exact absurd hok (by simp)

theorem lengthSync_delete (e e2 : Entities) (id : Nat)
    (hok : delete_by_id e id = .ok e2) (h : lengthSync e = true) :
    lengthSync e2 = true := by
  unfold delete_by_id at hok
  split at hok
  · obtain rfl : _ = e2 := by simpa using hok
    unfold lengthSync at h ⊢
    simpa [List.length_set] using h
  · exact absurd hok (by simp)

/-- Claim C1, counterexample: creating an entity and then registering a
type yields a reachable state whose new column is empty while the
presence-bitmask sequence has one slot, so the claimed always-equal-length
invariant fails after register_component when entity slots already
exist. -/
theorem c1_counterexample :
    Reach (register_component (create_entity initEntities) 0) ∧
      lengthSync (register_component (create_entity initEntities) 0) = false :=
  ⟨Reach.reg 0 (Reach.create Reach.init), by decide⟩

/-- Claim C1, amended: at every state reachable when every
register_component call is made while no entity slot exists yet, the
presence-bitmask sequence and every registered column have identical
length, and entity creation keeps them identical, extending all of the
sequences together in the append case. -/
theorem c1_amended (e : Entities) (h : ReachRF e) :
    lengthSync e = true ∧ lengthSync (create_entity e) = true := by
  have main : lengthSync e = true := by
    induction h with
    | init => rfl
    | reg t _ hm ih => exact lengthSync_register _ t hm ih
    | create _ ih => exact lengthSync_create _ ih
    | attach t v _ hok ih => exact lengthSync_with_component _ _ t v hok ih
    | attachAt id t v _ hok ih => exact lengthSync_add _ _ id t v hok ih
    | detach t id _ hok ih => exact lengthSync_detach _ _ t id hok ih
    | delete id _ hok ih => exact lengthSync_delete _ _ id hok ih
  exact ⟨main, lengthSync_create e main⟩

theorem c1_witness :
    lengthSync (create_entity (register_component initEntities 0)) = true ∧
      lengthSync (create_entity (create_entity (register_component initEntities 0))) = true :=
  c1_amended (create_entity (register_component initEntities 0))
    (ReachRF.create (ReachRF.reg 0 ReachRF.init rfl))

/-- The distinct registered types in first-registration order: the key
sequence the two hash maps acquire under a sequence of register calls. -/
def firstOccs : List TypeId → List TypeId
  | [] => []
  | x :: xs => x :: (firstOccs xs).filter (fun y => y != x)

/-- The columns table holding an empty column per type of a key list. -/
def colsFrom (l : List TypeId) : List (TypeId × List (Option Value)) :=
  l.map (fun t => (t, []))

/-- The bitmask table assigning 1 <<< k, 1 <<< (k+1), ... along a key
list. -/
def masksFrom : List TypeId → Nat → List (TypeId × Nat)
  | [], _ => []
  | t :: ts, k => (t, 1 <<< k) :: masksFrom ts (k + 1)

theorem mem_firstOccs : ∀ (l : List TypeId) (t : TypeId), t ∈ firstOccs l ↔ t ∈ l := by
  intro l
  induction l with
  | nil => intro t; simp [firstOccs]
  | cons x xs ih =>
      intro t
      unfold firstOccs
      by_cases ht : t = x
      · subst ht; simp
      · simp [List.mem_filter, ih, ht]

theorem firstOccs_nodup : ∀ l : List TypeId, (firstOccs l).Nodup := by
  intro l
  induction l with
  | nil => exact List.nodup_nil
  | cons x xs ih =>
      unfold firstOccs
      refine List.Nodup.cons ?_ (List.Nodup.filter _ ih)
      intro hx
      have := (List.mem_filter.mp hx).2
      simp at this

theorem takeWhile_filter_comm (t y : TypeId) (hyt : y ≠ t) :
    ∀ l : List TypeId,
      (l.filter (fun z => z != y)).takeWhile (fun z => z != t) =
        (l.takeWhile (fun z => z != t)).filter (fun z => z != y) := by
  intro l
  induction l with
  | nil => rfl
  | cons z zs ih =>
      by_cases hzy : z = y
      · subst hzy
        have hzt : (z != t) = true := by simpa using hyt
        simp only [List.filter_cons, bne_self_eq_false, Bool.false_eq_true, if_false,
          List.takeWhile_cons, hzt, if_true, ih]
      · by_cases hzt : z = t
        · subst hzt
          have h1 : (z != y) = true := by simpa using hzy
          simp [List.filter_cons, h1, List.takeWhile_cons]
        · have h1 : (z != y) = true := by simpa using hzy
          have h2 : (z != t) = true := by simpa using hzt
          simp [List.filter_cons, h1, List.takeWhile_cons, h2, ih]

theorem firstOccs_takeWhile (t : TypeId) :
    ∀ l : List TypeId,
      firstOccs (l.takeWhile (fun x => x != t)) =
        (firstOccs l).takeWhile (fun x => x != t) := by
  intro l
  induction l with
  | nil => rfl
  | cons y ys ih =>
      by_cases hyt : y = t
      · subst hyt
        simp [List.takeWhile_cons, firstOccs]
      · have h1 : (y != t) = true := by simpa using hyt
        simp only [List.takeWhile_cons, h1, if_true]
        unfold firstOccs
        simp only [List.takeWhile_cons, h1, if_true]
        rw [ih, takeWhile_filter_comm t y hyt]

theorem firstOccs_append (x : TypeId) :
    ∀ ts : List TypeId,
      firstOccs (ts ++ [x]) =
        if x ∈ ts then firstOccs ts else firstOccs ts ++ [x] := by
  intro ts
  induction ts with
  | nil => simp [firstOccs]
  | cons y ys ih =>
      show firstOccs (y :: (ys ++ [x])) = _
      unfold firstOccs
      rw [ih]
      by_cases hx : x ∈ ys
      · simp only [hx, if_true]
        have : x ∈ y :: ys := List.mem_cons_of_mem _ hx
        simp only [this, if_true]
      · simp only [hx, if_false]
        by_cases hxy : x = y
        · subst hxy
          have : x ∈ x :: ys := List.mem_cons_self _ _
          simp only [this, if_true]
          rw [List.filter_append]
          simp [firstOccs]
        · have : x ∉ y :: ys := by simp [hxy, hx]
          simp only [this, if_false]
          rw [List.filter_append]
          have h1 : (x != y) = true := by simpa using hxy
          simp [firstOccs, h1]

theorem alGet_colsFrom_mem : ∀ (l : List TypeId) (t : TypeId), t ∈ l →
    alGet (colsFrom l) t = some [] := by
  intro l
  induction l with
  | nil => intro t h; exact absurd h (by simp)
  | cons x xs ih =>
      intro t h
      unfold colsFrom at *
      simp only [List.map_cons]
      unfold alGet
      by_cases hx : x = t
      · simp [hx]
      · have : t ∈ xs := by
          cases List.mem_cons.mp h with
          | inl h2 => exact absurd h2.symm hx
          | inr h2 => exact h2
        simp [hx, ih t this]

theorem alGet_colsFrom_not_mem : ∀ (l : List TypeId) (t : TypeId), t ∉ l →
    alGet (colsFrom l) t = none := by
  intro l
  induction l with
  | nil => intro t _; rfl
  | cons x xs ih =>
      intro t h
      have hx : x ≠ t := fun hh => h (by simp [hh])
      have hxs : t ∉ xs := fun hh => h (List.mem_cons_of_mem _ hh)
      unfold colsFrom at *
      simp only [List.map_cons]
      unfold alGet
      simp [hx, ih t hxs]

theorem alGet_masksFrom_mem : ∀ (l : List TypeId) (k : Nat) (t : TypeId), t ∈ l →
    alGet (masksFrom l k) t =
      some (1 <<< (k + (l.takeWhile (fun x => x != t)).length)) := by
  intro l
  induction l with
  | nil => intro k t h; exact absurd h (by simp)
  | cons x xs ih =>
      intro k t h
      unfold masksFrom alGet
      by_cases hx : x = t
      · subst hx
        simp [List.takeWhile_cons]
      · have : t ∈ xs := by
          cases List.mem_cons.mp h with
          | inl h2 => exact absurd h2.symm hx
          | inr h2 => exact h2
        have h1 : (x != t) = true := by simpa using hx
        rw [if_neg hx, ih (k + 1) t this]
        simp only [List.takeWhile_cons, h1, if_true, List.length_cons]
        have : k + 1 + (xs.takeWhile (fun y => y != t)).length =
            k + ((xs.takeWhile (fun y => y != t)).length + 1) := by omega
        rw [this]

theorem alGet_masksFrom_not_mem : ∀ (l : List TypeId) (k : Nat) (t : TypeId), t ∉ l →
    alGet (masksFrom l k) t = none := by
  intro l
  induction l with
  | nil => intro k t _; rfl
  | cons x xs ih =>
      intro k t h
      have hx : x ≠ t := fun hh => h (by simp [hh])
      have hxs : t ∉ xs := fun hh => h (List.mem_cons_of_mem _ hh)
      unfold masksFrom alGet
      simp [hx, ih (k + 1) t hxs]

theorem colsFrom_length (l : List TypeId) : (colsFrom l).length = l.length := by
  unfold colsFrom
  exact List.length_map _ _

theorem masksFrom_append (x : TypeId) :
    ∀ (l : List TypeId) (k : Nat),
      masksFrom (l ++ [x]) k = masksFrom l k ++ [(x, 1 <<< (k + l.length))] := by
  intro l
  induction l with
  | nil => intro k; simp [masksFrom]
  | cons y ys ih =>
      intro k
      show masksFrom (y :: (ys ++ [x])) k = _
      unfold masksFrom
      rw [ih (k + 1)]
      simp only [List.cons_append, List.length_cons]
      have : k + 1 + ys.length = k + (ys.length + 1) := by omega
      rw [this]

theorem registerAll_closed : ∀ ts : List TypeId,
    registerAll initEntities ts =
      ⟨colsFrom (firstOccs ts), masksFrom (firstOccs ts) 0, [], 0⟩ := by
  intro ts
  induction ts using List.reverseRecOn with
  | nil => rfl
  | append_singleton ts x ih =>
      unfold registerAll at *
      rw [List.foldl_append, ih]
      simp only [List.foldl_cons, List.foldl_nil]
      unfold register_component
      by_cases hx : x ∈ ts
      · have hx2 : x ∈ firstOccs ts := (mem_firstOccs ts x).mpr hx
        rw [firstOccs_append]
        simp only [hx, if_true]
        simp [alGet_colsFrom_mem _ _ hx2, alGet_masksFrom_mem _ 0 _ hx2]
      · have hx2 : x ∉ firstOccs ts := fun hh => hx ((mem_firstOccs ts x).mp hh)
        rw [firstOccs_append]
        simp only [hx, if_false]
        rw [alGet_colsFrom_not_mem _ _ hx2, alGet_masksFrom_not_mem _ 0 _ hx2]
        simp only [Option.isSome_none, Bool.false_eq_true, if_false]
        have hc : colsFrom (firstOccs ts) ++ [(x, [])] = colsFrom (firstOccs ts ++ [x]) := by
          unfold colsFrom
          simp
        have hlen : (colsFrom (firstOccs ts) ++ [(x, [])]).length - 1 =
            (firstOccs ts).length := by
          rw [List.length_append, colsFrom_length]
          simp
        rw [hlen, hc, masksFrom_append]
        simp

/-- Claim C5: under any sequence of register_component calls over at most
32 distinct types, a registered type holds the bitmask 1 shifted left by
the number of distinct types registered before its first registration
(firstOccs of the prefix before the first occurrence lists exactly those
types), its column is the empty column registration created, and
registering an already-registered type is a no-op on the whole state. -/
theorem c5_register_bits (ts : List TypeId) (t : TypeId) (e : Entities)
    (h32 : (firstOccs ts).length ≤ 32) (ht : t ∈ ts)
    (he1 : (alGet e.components t).isSome = true)
    (he2 : (alGet e.bit_masks t).isSome = true) :
    alGet (registerAll initEntities ts).bit_masks t
        = some (1 <<< (firstOccs (ts.takeWhile (fun x => x != t))).length) ∧
    alGet (registerAll initEntities ts).components t = some [] ∧
    register_component e t = e := by
  rw [registerAll_closed ts]
  have htf : t ∈ firstOccs ts := (mem_firstOccs ts t).mpr ht
  refine ⟨?_, ?_, ?_⟩
  · show alGet (masksFrom (firstOccs ts) 0) t = _
    rw [alGet_masksFrom_mem _ 0 t htf, firstOccs_takeWhile]
    simp
  · exact alGet_colsFrom_mem _ t htf
  · unfold register_component
    rw [he1, he2]
    rfl

theorem c5_witness :
    alGet (registerAll initEntities [5, 7, 5, 9]).bit_masks 9
        = some (1 <<< (firstOccs ([5, 7, 5, 9].takeWhile (fun x => x != 9))).length) ∧
    alGet (registerAll initEntities [5, 7, 5, 9]).components 9 = some [] ∧
    register_component ⟨[(9, [])], [(9, 1)], [], 0⟩ 9 = ⟨[(9, [])], [(9, 1)], [], 0⟩ :=
  c5_register_bits [5, 7, 5, 9] 9 ⟨[(9, [])], [(9, 1)], [], 0⟩
    (by decide) (by decide) (by decide) (by decide)

theorem collectOpt_spec {α β : Type} (f : α → Option β) :
    ∀ l : List α, (∀ x ∈ l, (f x).isSome = true) →
      ∃ r, collectOpt f l = some r ∧ r.length = l.length ∧
        ∀ j, r.get? j = (l.get? j).bind f := by
  intro l
  induction l with
  | nil =>
      intro _
      refine ⟨[], rfl, rfl, ?_⟩
      intro j
      simp
  | cons x xs ih =>
      intro h
      obtain ⟨y, hy⟩ := Option.isSome_iff_exists.mp (h x (List.mem_cons_self _ _))
      obtain ⟨r, hr1, hr2, hr3⟩ := ih (fun z hz => h z (List.mem_cons_of_mem _ hz))
      refine ⟨y :: r, ?_, by simp [hr2], ?_⟩
      · unfold collectOpt
        rw [hy, hr1]
      · intro j
        cases j with
        | zero => simp [hy]
        | succ j' => simpa using hr3 j'

theorem buildQuery_type_ids : ∀ (ts : List TypeId) (e : Entities) (q0 q : Query),
    buildQuery e q0 ts = .ok q → q.type_ids = q0.type_ids ++ ts := by
  intro ts
  induction ts with
  | nil =>
      intro e q0 q h
      obtain rfl : q0 = q := by simpa [buildQuery] using h
      simp
  | cons t ts ih =>
      intro e q0 q h
      unfold buildQuery Query.with_component at h
      cases hbm : get_bitmask e t with
      | none =>
          rw [hbm] at h
          exact absurd h (by simp)
      | some bm =>
          rw [hbm] at h
          simp only [] at h
          have := ih e ⟨q0.map ||| bm, q0.type_ids ++ [t]⟩ q h
          simpa using this

theorem matchIdx_sorted (e : Entities) (m : Nat) :
    List.Sorted (· < ·) (matchIdx e m) :=
  List.Pairwise.filter _ (List.pairwise_lt_range _)

theorem matchIdx_mem (e : Entities) (m i : Nat) :
    i ∈ matchIdx e m ↔ i < e.map.length ∧ (e.map.getD i 0) &&& m = m := by
  unfold matchIdx
  rw [List.mem_filter, List.mem_range]
  simp [beq_iff_eq]

theorem run_spec (e : Entities) (q : Query) (hpre : runPre e q = true) :
    ∃ cols, Query.run e q = some (matchIdx e q.map, cols) ∧
      cols.length = q.type_ids.length ∧
      ∀ k t, q.type_ids.get? k = some t →
        ∃ colk, cols.get? k = some colk ∧
          colk.length = (matchIdx e q.map).length ∧
          ∀ j, colk.get? j = ((matchIdx e q.map).get? j).bind (storedValue e t) := by
  unfold runPre at hpre
  have hp : ∀ t ∈ q.type_ids, (alGet e.components t).isSome = true ∧
      ∀ i ∈ matchIdx e q.map, (storedValue e t i).isSome = true := by
    intro t htm
    have := List.all_eq_true.mp hpre t htm
    rw [Bool.and_eq_true] at this
    exact ⟨this.1, fun i hi => List.all_eq_true.mp this.2 i hi⟩
  have hf : ∀ t ∈ q.type_ids,
      ∃ colk, (match alGet e.components t with
          | none => none
          | some col => collectOpt (fun i => (col.get? i).bind id) (matchIdx e q.map))
          = some colk ∧
        colk.length = (matchIdx e q.map).length ∧
        ∀ j, colk.get? j = ((matchIdx e q.map).get? j).bind (storedValue e t) := by
    intro t htm
    obtain ⟨h1, h2⟩ := hp t htm
    obtain ⟨col, hcol⟩ := Option.isSome_iff_exists.mp h1
    rw [hcol]
    have hg : ∀ i ∈ matchIdx e q.map, ((col.get? i).bind id).isSome = true := by
      intro i hi
      have h3 := h2 i hi
      unfold storedValue at h3
      rw [hcol] at h3
      simpa using h3
    obtain ⟨r, hr1, hr2, hr3⟩ := collectOpt_spec _ _ hg
    refine ⟨r, hr1, hr2, ?_⟩
    intro j
    rw [hr3 j]
    unfold storedValue
    rw [hcol]
    cases (matchIdx e q.map).get? j <;> simp
  have houter : ∀ t ∈ q.type_ids,
      (Option.isSome (match alGet e.components t with
        | none => none
        | some col => collectOpt (fun i => (col.get? i).bind id) (matchIdx e q.map)))
        = true := by
    intro t htm
    obtain ⟨colk, hcolk, _, _⟩ := hf t htm
    rw [hcolk]
    rfl
  obtain ⟨results, hres1, hres2, hres3⟩ := collectOpt_spec _ _ houter
  refine ⟨results, ?_, by rw [hres2], ?_⟩
  · unfold Query.run
    rw [hres1]
  · intro k t hk
    have hmem : t ∈ q.type_ids := by
      have := List.get?_eq_some.mp hk
      obtain ⟨hlt, hget⟩ := this
      exact hget ▸ List.get_mem _ _ _
    obtain ⟨colk, hcolk, hlen, hchar⟩ := hf t hmem
    refine ⟨colk, ?_, hlen, hchar⟩
    rw [hres3 k, hk]
    simpa using hcolk

/-- Claim C2: for every registry state and every query built from it by
a sequence of require calls, when every requested column holds a stored
value at every matching slot, run returns exactly the slot indices whose
presence mask bitwise-contains the required mask, in ascending order,
and, for each requested type in require order with duplicates kept, a
column whose k-th element is the stored value of that type at the k-th
matching index, so all returned sequences are co-indexed. -/
theorem c2_run (e : Entities) (ts : List TypeId) (q : Query)
    (hq : buildQuery e Query.new ts = .ok q)
    (hpre : runPre e q = true) :
    ∃ idx cols, Query.run e q = some (idx, cols) ∧
      q.type_ids = ts ∧
      List.Sorted (· < ·) idx ∧
      (∀ i, i ∈ idx ↔ i < e.map.length ∧ (e.map.getD i 0) &&& q.map = q.map) ∧
      cols.length = ts.length ∧
      ∀ k t, ts.get? k = some t →
        ∃ colk, cols.get? k = some colk ∧ colk.length = idx.length ∧
          ∀ j i, idx.get? j = some i →
            ∃ v, colk.get? j = some v ∧ storedValue e t i = some v := by
  obtain ⟨cols, h1, h2, h3⟩ := run_spec e q hpre
  have hts : q.type_ids = ts := by
    have := buildQuery_type_ids ts e Query.new q hq
    simpa [Query.new] using this
  refine ⟨matchIdx e q.map, cols, h1, hts, matchIdx_sorted e q.map,
    fun i => matchIdx_mem e q.map i, by rw [h2, hts], ?_⟩
  intro k t hk
  obtain ⟨colk, hc1, hc2, hc3⟩ := h3 k t (by rw [hts]; exact hk)
  refine ⟨colk, hc1, hc2, ?_⟩
  intro j i hj
  have hchar := hc3 j
  rw [hj] at hchar
  have htm : t ∈ q.type_ids := by
    rw [hts]
    obtain ⟨hlt, hget⟩ := List.get?_eq_some.mp hk
    exact hget ▸ List.get_mem _ _ _
  have hmem : i ∈ matchIdx e q.map := by
    obtain ⟨hlt, hget⟩ := List.get?_eq_some.mp hj
    exact hget ▸ List.get_mem _ _ _
  unfold runPre at hpre
  have h5 := List.all_eq_true.mp hpre t htm
  rw [Bool.and_eq_true] at h5
  have h6 := List.all_eq_true.mp h5.2 i hmem
  obtain ⟨v, hv⟩ := Option.isSome_iff_exists.mp h6
  refine ⟨v, ?_, hv⟩
  rw [hchar]
  exact hv

theorem c2_witness :
    buildQuery (Entities.mk [(0, [some 7])] [(0, 1)] [1] 0) Query.new [0] =
      .ok (Query.mk 1 [0]) ∧
    ∃ idx cols,
      Query.run (Entities.mk [(0, [some 7])] [(0, 1)] [1] 0) (Query.mk 1 [0]) =
        some (idx, cols) ∧
      (Query.mk 1 [0]).type_ids = [0] ∧
      List.Sorted (· < ·) idx ∧
      (∀ i, i ∈ idx ↔
        i < (Entities.mk [(0, [some 7])] [(0, 1)] [1] 0).map.length ∧
        ((Entities.mk [(0, [some 7])] [(0, 1)] [1] 0).map.getD i 0) &&&
            (Query.mk 1 [0]).map = (Query.mk 1 [0]).map) ∧
      cols.length = [0].length ∧
      ∀ k t, [0].get? k = some t →
        ∃ colk, cols.get? k = some colk ∧ colk.length = idx.length ∧
          ∀ j i, idx.get? j = some i →
            ∃ v, colk.get? j = some v ∧
              storedValue (Entities.mk [(0, [some 7])] [(0, 1)] [1] 0) t i = some v :=
  ⟨by decide,
   c2_run (Entities.mk [(0, [some 7])] [(0, 1)] [1] 0) [0] (Query.mk 1 [0])
     (by decide) (by decide)⟩

/-- Claim C9: Query.run is total under the precondition that every
requested column holds a stored value at every matching slot, and the
precondition is violated in reachable states: toggle-detaching a
component a slot never had sets its presence bit without storing a
value, and a subsequent query requiring that type panics inside run
(modelled as none) instead of returning a result. -/
theorem c9_run_totality (e : Entities) (q : Query) (hpre : runPre e q = true) :
    (Query.run e q).isSome = true ∧
      delete_component_by_entity_id (create_entity (register_component initEntities 0)) 0 0 =
        .ok (Entities.mk [(0, [none])] [(0, 1)] [1] 0) ∧
      Query.with_component (Entities.mk [(0, [none])] [(0, 1)] [1] 0) Query.new 0 =
        .ok (Query.mk 1 [0]) ∧
      runPre (Entities.mk [(0, [none])] [(0, 1)] [1] 0) (Query.mk 1 [0]) = false ∧
      Query.run (Entities.mk [(0, [none])] [(0, 1)] [1] 0) (Query.mk 1 [0]) = none := by
  obtain ⟨cols, h1, -, -⟩ := run_spec e q hpre
  exact ⟨by rw [h1]; rfl, by decide, by decide, by decide, by decide⟩

theorem c9_witness :
    (Query.run (Entities.mk [(0, [some 7])] [(0, 1)] [1] 0) (Query.mk 1 [0])).isSome
        = true ∧
      delete_component_by_entity_id (create_entity (register_component initEntities 0)) 0 0 =
        .ok (Entities.mk [(0, [none])] [(0, 1)] [1] 0) ∧
      Query.with_component (Entities.mk [(0, [none])] [(0, 1)] [1] 0) Query.new 0 =
        .ok (Query.mk 1 [0]) ∧
      runPre (Entities.mk [(0, [none])] [(0, 1)] [1] 0) (Query.mk 1 [0]) = false ∧
      Query.run (Entities.mk [(0, [none])] [(0, 1)] [1] 0) (Query.mk 1 [0]) = none :=
  c9_run_totality (Entities.mk [(0, [some 7])] [(0, 1)] [1] 0) (Query.mk 1 [0])
    (by decide)

/-- Claim C6, counterexample: on a state where type 0 is registered but
its column has no entry at the target slot index, both attach operations
panic instead of returning a result error, so neither fails with the
result error CreateComponentNeverCalled the claim describes. -/
theorem c6_counterexample :
    with_component (register_component initEntities 0) 0 99 = .panicked ∧
    add_component_by_entity_id (register_component initEntities 0) 0 0 99 = .panicked :=
  ⟨by decide, by decide⟩

/-- Claim C6, amended: both attach operations fail with the result error
ComponentNotRegistered when the type of the value was never registered;
when the target column has no entry at the slot index they do not return
a result error but panic (with_component by unwrapping the
CreateComponentNeverCalled error, add_component_by_entity_id by an
out-of-bounds index); otherwise they store the value at the slot index
of the column, silently overwriting any previous value, and OR the bit
of the type into the slot presence mask. -/
theorem c6_amended (e : Entities) (t : TypeId) (v : Value) (id : Nat) :
    (alGet e.components t = none →
      with_component e t v = .error .ComponentNotRegistered e) ∧
    (alGet e.bit_masks t = none →
      add_component_by_entity_id e id t v = .error .ComponentNotRegistered e) ∧
    (∀ col, alGet e.components t = some col → col.length ≤ e.first_empty_index →
      with_component e t v = .panicked) ∧
    (∀ mask col, alGet e.bit_masks t = some mask → alGet e.components t = some col →
      col.length ≤ id → add_component_by_entity_id e id t v = .panicked) ∧
    (∀ col bm, alGet e.components t = some col → alGet e.bit_masks t = some bm →
      e.first_empty_index < col.length → e.first_empty_index < e.map.length →
      with_component e t v = .ok { e with
        components := alSet e.components t (col.set e.first_empty_index (some v)),
        map := e.map.set e.first_empty_index
          ((e.map.getD e.first_empty_index 0) ||| bm) }) ∧
    (∀ bm col, alGet e.bit_masks t = some bm → alGet e.components t = some col →
      id < col.length → id < e.map.length →
      add_component_by_entity_id e id t v = .ok { e with
        components := alSet e.components t (col.set id (some v)),
        map := e.map.set id ((e.map.getD id 0) ||| bm) }) := by
  refine ⟨?_, ?_, ?_, ?_, ?_, ?_⟩
  · intro h
    unfold with_component
    rw [h]
  · intro h
    unfold add_component_by_entity_id
    rw [h]
  · intro col hcol hle
    unfold with_component
    simp only [hcol]
    rw [if_neg (Nat.not_lt.mpr hle)]
  · intro mask col hbm hcol hle
    unfold add_component_by_entity_id
    simp only [hbm, hcol]
    rw [if_neg (Nat.not_lt.mpr hle)]
  · intro col bm hcol hbm h1 h2
    unfold with_component
    simp only [hcol, hbm]
    rw [if_pos h1, if_pos h2]
  · intro bm col hbm hcol h1 h2
    unfold add_component_by_entity_id
    simp only [hbm, hcol]
    rw [if_pos h1, if_pos h2]

theorem c6_witness :
    with_component initEntities 0 7 = .error .ComponentNotRegistered initEntities ∧
    with_component (Entities.mk [(0, [none])] [(0, 1)] [0] 0) 0 7 =
      .ok (Entities.mk [(0, [some 7])] [(0, 1)] [1] 0) ∧
    add_component_by_entity_id (Entities.mk [(0, [none])] [(0, 1)] [0] 0) 0 0 9 =
      .ok (Entities.mk [(0, [some 9])] [(0, 1)] [1] 0) :=
  ⟨(c6_amended initEntities 0 7 0).1 rfl,
   (c6_amended (Entities.mk [(0, [none])] [(0, 1)] [0] 0) 0 7 0).2.2.2.2.1
     [none] 1 rfl rfl (by decide) (by decide),
   (c6_amended (Entities.mk [(0, [none])] [(0, 1)] [0] 0) 0 9 0).2.2.2.2.2
     1 [none] rfl rfl (by decide) (by decide)⟩

/-- Claim C2, counterexample: in the reachable state obtained by
registering type 0, creating one entity and toggle-detaching type 0 on
it (which sets the presence bit without storing a value), the query
built by one require call on type 0 panics inside run (modelled as
none) instead of returning the matching indices and columns, so the
claim does not hold unconditionally over every registry state. -/
theorem c2_counterexample :
    delete_component_by_entity_id (create_entity (register_component initEntities 0)) 0 0 =
      .ok (Entities.mk [(0, [none])] [(0, 1)] [1] 0) ∧
    buildQuery (Entities.mk [(0, [none])] [(0, 1)] [1] 0) Query.new [0] =
      .ok (Query.mk 1 [0]) ∧
    Query.run (Entities.mk [(0, [none])] [(0, 1)] [1] 0) (Query.mk 1 [0]) = none :=
  ⟨by decide, by decide, by decide⟩
